import Mathlib

/-!
Shallow embedding of go-redis-setlock (main.go).

The program acquires a token-guarded expiring lock in Redis, runs a child
command while holding it, and releases the lock afterwards.  Pure logic of
the Go source is translated into Lean functions; interaction with the
outside world (the Redis server answering SET ... NX, the child process,
OS signals) is supplied as explicit parameters, and the side effects the
program performs are collected into an event trace.
-/

/-- `RetryInterval = time.Duration(500) * time.Millisecond`, in milliseconds. -/
def retryIntervalMs : Nat := 500

/-- `ExitCodeError = 111`. -/
def exitCodeError : Int := 111

/-- `DefaultExpires = 86400`. -/
def defaultExpires : Int := 86400

/-- The signals listed in `TrapSignals`: SIGHUP, SIGINT, SIGTERM, SIGQUIT. -/
inductive Sig where
  | hup
  | int
  | term
  | quit
deriving DecidableEq, Repr

/-- The OS signal number of each trapped signal (Linux values, what Go
`int(sig)` evaluates to for a `syscall.Signal`). -/
def sigNum : Sig → Int
  | .hup => 1
  | .int => 2
  | .term => 15
  | .quit => 3

/-- Observable actions of one invocation, in program order. -/
inductive Event where
  | connect
  | versionProbe
  | setNX (key token : String) (expires : Int)
  | sleep (ms : Nat)
  | startChild
  | sigReceived (s : Sig)
  | forwardSignal (s : Sig)
  | reapChild
  | releaseCalled
  | evalUnlock (key token : String)
deriving DecidableEq, Repr

/-- The `Options` struct. -/
structure Options where
  redis : String
  expires : Int
  keep : Bool
  wait : Bool
  exitCode : Int
deriving DecidableEq, Repr

/-- The boolean and numeric flag values that `parseOptions` reads via the
`flag` package (`-n`, `-N`, `-x`, `-X`, `-keep`, `-expires`, `-redis`). -/
structure FlagInputs where
  redis : String
  expires : Int
  keep : Bool
  noDelay : Bool
  delay : Bool
  exitZero : Bool
  exitNonZero : Bool
deriving DecidableEq, Repr

/-- `parseOptions` (option construction part): wait defaults to true and is
cleared by `-n`; exit code defaults to `ExitCodeError` and is set to 0 by
`-x`.  The `-N` and `-X` flag values are read but never consulted. -/
def parseOptions (f : FlagInputs) : Options :=
  let opt : Options :=
    { redis := f.redis
      keep := f.keep
      wait := true
      exitCode := exitCodeError
      expires := f.expires }
  let opt := if f.noDelay then { opt with wait := false } else opt
  let opt := if f.exitZero then { opt with exitCode := 0 } else opt
  opt

/-- Go `strconv.Atoi` with the error ignored, as the source does
(`major, _ := strconv.Atoi(...)`): an optional sign followed by one or
more digits parses to that integer, anything else leaves the zero value. -/
def goAtoi (s : String) : Int :=
  let core (sign : Int) (ds : List Char) : Int :=
    if ds ≠ [] ∧ ds.all Char.isDigit then
      sign * Int.ofNat (ds.foldl (fun acc c => acc * 10 + (c.toNat - 48)) 0)
    else 0
  match s.toList with
  | '+' :: rest => core 1 rest
  | '-' :: rest => core (-1) rest
  | l => core 1 l

/-- Splitting a character list around every occurrence of `sep`, the
semantics of Go `strings.Split` for a one-character separator (the source
only splits on `"."`, `":"` and `"\n"`). -/
def splitOnChar (sep : Char) : List Char → List (List Char)
  | [] => [[]]
  | c :: rest =>
    let r := splitOnChar sep rest
    if c = sep then [] :: r
    else
      match r with
      | [] => [[c]]
      | h :: t => (c :: h) :: t

/-- Go `strings.Split (s, sep)` for a one-character separator. -/
def goSplit (s : String) (sep : Char) : List String :=
  (splitOnChar sep s.toList).map (fun l => String.mk l)

/-- Joining strings with a one-character separator, used to rebuild the
unsplit remainder that Go `strings.SplitN` leaves in its last piece. -/
def joinSep (sep : Char) : List String → String
  | [] => ""
  | [x] => x
  | x :: y :: xs => x ++ String.singleton sep ++ joinSep sep (y :: xs)

/-- Go `strings.SplitN (s, sep, n)` for `n > 0` and a one-character
separator: at most `n` substrings, the last one holding the unsplit
remainder. -/
def goSplitN (s : String) (sep : Char) (n : Nat) : List String :=
  let rec regroup : Nat → List String → List String
    | _, [] => []
    | 0, _ => []
    | 1, parts => [joinSep sep parts]
    | Nat.succ (Nat.succ m), p :: ps =>
      if ps.isEmpty then [p] else p :: regroup (Nat.succ m) ps
  regroup n (goSplit s sep)

/-- The acceptance condition of `validateRedisVersion` on the three parsed
components: `(major >= 3) || (major == 2 && minor >= 7) ||
(major == 2 && minor == 6 && rev >= 12)`. -/
def versionCheck (major minor rev : Int) : Bool :=
  (major ≥ 3) || (major == 2 && minor ≥ 7) || (major == 2 && minor == 6 && rev ≥ 12)

/-- `validateRedisVersion`, from the extracted `redis_version` string on:
an empty string is rejected; otherwise the string is split with
`strings.SplitN(version, ".", 3)` and the three components are read by
index.  `none` models the Go panic (index out of range) that occurs when
the split yields fewer than three components, since `vNumbers[1]` and
`vNumbers[2]` are accessed unconditionally. -/
def validateRedisVersion (version : String) : Option Bool :=
  if version == "" then some false
  else
    let vNumbers := goSplitN version '.' 3
    match vNumbers.get? 0, vNumbers.get? 1, vNumbers.get? 2 with
    | some a, some b, some c => some (versionCheck (goAtoi a) (goAtoi b) (goAtoi c))
    | _, _, _ => none

/-- Written from the words of the spec, for comparison with
`validateRedisVersion`: a strict `major.minor.patch` parse that fails on
any string that is not exactly three dot-separated non-negative numbers. -/
def specParseVersion (v : String) : Option (Int × Int × Int) :=
  let num (s : String) : Option Int :=
    if s.toList ≠ [] ∧ s.toList.all Char.isDigit then
      some (Int.ofNat (s.toList.foldl (fun acc c => acc * 10 + (c.toNat - 48)) 0))
    else none
  match goSplit v '.' with
  | [a, b, c] =>
    match num a, num b, num c with
    | some x, some y, some z => some (x, y, z)
    | _, _, _ => none
  | _ => none

/-- The loop of `tryGetLock`.  `env i` tells whether the i-th
`SET key token EX expires NX` command succeeds (the key was absent);
`token` was generated once before the loop.  Fuel bounds the number of
iterations we unfold; `none` means the loop is still running after that
many iterations.  Returns the final value of `gotLock` and the trace. -/
def tryGetLockLoop (key : String) (expires : Int) (wait : Bool)
    (env : Nat → Bool) (token : String) :
    Nat → Nat → Option Bool × List Event
  | 0, _ => (none, [])
  | Nat.succ fuel, i =>
    if env i then
      (some true, [.setNX key token expires])
    else if !wait then
      (some false, [.setNX key token expires])
    else
      let rest := tryGetLockLoop key expires wait env token fuel (i + 1)
      (rest.1, .setNX key token expires :: .sleep retryIntervalMs :: rest.2)

/-- `tryGetLock`: generates one token via `createToken` (modelled by
`gen`, a stream of fresh random values of which the function consumes the
first), runs the loop, and on success returns that token, otherwise the
error `unable to lock`. -/
def tryGetLock (key : String) (opt : Options) (env : Nat → Bool)
    (gen : Nat → String) (fuel : Nat) :
    Option (Except String String) × List Event :=
  let token := gen 0
  let r := tryGetLockLoop key opt.expires opt.wait env token fuel 0
  (r.1.map (fun got => if got then .ok token else .error "unable to lock"), r.2)

/-- The tokens passed to the `SET ... NX` attempts of a trace. -/
def attemptTokens : List Event → List String
  | [] => []
  | .setNX _ tok _ :: rest => tok :: attemptTokens rest
  | _ :: rest => attemptTokens rest

/-- A demonstration token generator standing in for `createToken`: each
call yields a fresh, pairwise distinct value. -/
def demoTokenGen (n : Nat) : String :=
  "t" ++ toString n

/-- The sleep durations (milliseconds) of a trace. -/
def sleepDurations : List Event → List Nat
  | [] => []
  | .sleep ms :: rest => ms :: sleepDurations rest
  | _ :: rest => sleepDurations rest

/-- Written from the words of the spec: the sleep between two acquisition
attempts is randomized, that is, it is not the same duration on every
iteration of every run. -/
def sleepIsRandomized : Prop :=
  ∃ (key : String) (opt : Options) (env : Nat → Bool) (gen : Nat → String) (fuel : Nat),
    ∃ d ∈ sleepDurations (tryGetLock key opt env gen fuel).2,
      d ≠ retryIntervalMs

/-- The Redis store as seen by the unlock script: the keys currently set,
with their values. -/
def Store := List (String × String)

instance : DecidableEq Store := by
  unfold Store
  infer_instance

/-- The semantics of `UnlockLUAScript` run by `EVAL` with `KEYS[1] = key`
and `ARGV[1] = token`: if the current value of `key` equals `token`, the
key is deleted and 1 is returned, otherwise the store is unchanged and 0
is returned. -/
def evalUnlockScript (store : Store) (key token : String) : Store × Int :=
  if store.lookup key = some token then
    (store.filter (fun p => !(p.1 == key)), 1)
  else
    (store, 0)

/-- `releaseLock`: with `opt.Keep` it returns nil at once; otherwise it
runs the unlock script via `EVAL` and returns `r.Err`, the transport
error of the command.  The script result (0 or 1) is never inspected.
The model has no transport failures, so the returned error is always
`none`.  Result: final store, returned error, trace. -/
def releaseLock (opt : Options) (store : Store) (key token : String) :
    Store × Option String × List Event :=
  if opt.keep then
    (store, none, [.releaseCalled])
  else
    let r := evalUnlockScript store key token
    (r.1, none, [.releaseCalled, .evalUnlock key token])

/-- Which of the two channels of `invokeCommand`'s `select` fires first:
a trapped signal, or child completion.  `exited none` is a child that
exits with status 0 (`cmd.Wait` returns nil); `exited (some c)` is a
child whose wait status decodes to exit status `c`. -/
inductive SigOrExit where
  | signal (s : Sig)
  | exited (w : Option Int)
deriving DecidableEq, Repr

/-- `invokeCommand`, from `cmd.Start()` on: the `select` races the signal
channel against the completion channel.  On a signal, the identical
signal is forwarded to the child, `code` is set to `int(sig)`, and the
completion channel is drained before returning; `cmdErr` stays nil, so
the final wait-status decoding leaves `code` unchanged.  On completion
first, `cmdErr` holds the wait outcome and `code` is the decoded exit
status (0 when `cmd.Wait` returned nil). -/
def invokeCommand (race : SigOrExit) : Int × List Event :=
  let r : Int × Option Int × List Event :=
    match race with
    | .signal s =>
      (sigNum s, none, [.sigReceived s, .forwardSignal s, .reapChild])
    | .exited w => (0, w, [.reapChild])
  let code :=
    match r.2.1 with
    | some status => status
    | none => r.1
  (code, .startChild :: r.2.2)

/-- The outside world of one `run` invocation: whether the dial succeeds,
the `redis_version` string extracted from INFO, the outcome of each
`SET ... NX` attempt, the stream of random tokens, the signal-versus-exit
race of the child, the store contents at release time, and the fuel given
to the acquisition loop. -/
structure RunEnv where
  connectOk : Bool
  versionStr : String
  acquireEnv : Nat → Bool
  tokenGen : Nat → String
  race : SigOrExit
  store : Store
  fuel : Nat

/-- `run`: connect, validate the server version, try to get the lock; on
success run the command and (deferred) release the lock, returning the
command code; on failure log and return `opt.ExitCode`.  The result is
`none` when the invocation does not return normally: the version check
panicked, or the acquisition loop was still running when the fuel ran
out. -/
def run (opt : Options) (key : String) (env : RunEnv) :
    Option Int × List Event :=
  if !env.connectOk then
    (some exitCodeError, [.connect])
  else
    match validateRedisVersion env.versionStr with
    | none => (none, [.connect, .versionProbe])
    | some false => (some exitCodeError, [.connect, .versionProbe])
    | some true =>
      let acq := tryGetLock key opt env.acquireEnv env.tokenGen env.fuel
      match acq.1 with
      | none => (none, .connect :: .versionProbe :: acq.2)
      | some (.error _) =>
        (some opt.exitCode, .connect :: .versionProbe :: acq.2)
      | some (.ok token) =>
        let sup := invokeCommand env.race
        let rel := releaseLock opt env.store key token
        (some sup.1,
          .connect :: .versionProbe :: (acq.2 ++ sup.2 ++ rel.2.2))

/-! ## Helper lemmas about the acquisition loop -/

/-- Every `SET ... NX` attempt of the loop carries the token that was
generated before the loop was entered. -/
theorem attemptTokens_tryGetLockLoop (key : String) (expires : Int)
    (wait : Bool) (env : Nat → Bool) (token : String) :
    ∀ (fuel i : Nat),
      ∀ tok ∈ attemptTokens (tryGetLockLoop key expires wait env token fuel i).2,
        tok = token := by
  cases wait with
  | false =>
    intro fuel i tok h
    cases fuel with
    | zero => simp [tryGetLockLoop, attemptTokens] at h
    | succ n =>
      by_cases he : env i <;> simp [tryGetLockLoop, he, attemptTokens] at h <;> exact h
  | true =>
    intro fuel
    induction fuel with
    | zero => intro i tok h; simp [tryGetLockLoop, attemptTokens] at h
    | succ n ih =>
      intro i tok h
      by_cases he : env i
      · simp [tryGetLockLoop, he, attemptTokens] at h
        exact h
      · simp [tryGetLockLoop, he, attemptTokens] at h
        rcases h with h | h
        · exact h
        · exact ih (i + 1) tok h

/-- Every sleep of the loop lasts exactly `RetryInterval`. -/
theorem sleepDurations_tryGetLockLoop (key : String) (expires : Int)
    (wait : Bool) (env : Nat → Bool) (token : String) :
    ∀ (fuel i : Nat),
      ∀ d ∈ sleepDurations (tryGetLockLoop key expires wait env token fuel i).2,
        d = retryIntervalMs := by
  cases wait with
  | false =>
    intro fuel i d h
    cases fuel with
    | zero => simp [tryGetLockLoop, sleepDurations] at h
    | succ n =>
      by_cases he : env i <;> simp [tryGetLockLoop, he, sleepDurations] at h
  | true =>
    intro fuel
    induction fuel with
    | zero => intro i d h; simp [tryGetLockLoop, sleepDurations] at h
    | succ n ih =>
      intro i d h
      by_cases he : env i
      · simp [tryGetLockLoop, he, sleepDurations] at h
      · simp [tryGetLockLoop, he, sleepDurations] at h
        rcases h with h | h
        · exact h
        · exact ih (i + 1) d h

/-- In wait mode the loop never ends with `gotLock = false`. -/
theorem tryGetLockLoop_wait_not_false (key : String) (expires : Int)
    (env : Nat → Bool) (token : String) :
    ∀ (fuel i : Nat),
      (tryGetLockLoop key expires true env token fuel i).1 ≠ some false := by
  intro fuel
  induction fuel with
  | zero => intro i; simp [tryGetLockLoop]
  | succ n ih =>
    intro i
    by_cases he : env i
    · simp [tryGetLockLoop, he]
    · simp [tryGetLockLoop, he]
      exact ih (i + 1)

/-- If every `SET ... NX` attempt fails, the wait-mode loop produces no
result however much fuel it is given. -/
theorem tryGetLockLoop_allfail (key : String) (expires : Int)
    (env : Nat → Bool) (token : String) (hall : ∀ i, env i = false) :
    ∀ (fuel i : Nat),
      (tryGetLockLoop key expires true env token fuel i).1 = none := by
  intro fuel
  induction fuel with
  | zero => intro i; simp [tryGetLockLoop]
  | succ n ih =>
    intro i
    simp [tryGetLockLoop, hall i]
    exact ih (i + 1)

/-- The loop performs only `SET ... NX` attempts and sleeps: it never
calls release. -/
theorem releaseCalled_not_mem_tryGetLockLoop (key : String) (expires : Int)
    (wait : Bool) (env : Nat → Bool) (token : String) :
    ∀ (fuel i : Nat),
      Event.releaseCalled ∉ (tryGetLockLoop key expires wait env token fuel i).2 := by
  cases wait with
  | false =>
    intro fuel i
    cases fuel with
    | zero => simp [tryGetLockLoop]
    | succ n =>
      by_cases he : env i <;> simp [tryGetLockLoop, he]
  | true =>
    intro fuel
    induction fuel with
    | zero => intro i; simp [tryGetLockLoop]
    | succ n ih =>
      intro i
      by_cases he : env i
      · simp [tryGetLockLoop, he]
      · simp [tryGetLockLoop, he]
        exact ih (i + 1)

/-! ## Claim theorems -/

/-- C2: when `options.wait` is false and the conditional set-if-absent
fails because the key is already held, `tryGetLock` returns the
lock-contention error immediately after exactly one `SET ... NX` attempt,
with no sleep and no retry. -/
theorem noWait_contention_single_attempt (key : String) (opt : Options)
    (env : Nat → Bool) (gen : Nat → String) (fuel : Nat)
    (hw : opt.wait = false) (hf : 1 ≤ fuel) (h0 : env 0 = false) :
    tryGetLock key opt env gen fuel
      = (some (Except.error "unable to lock"),
         [Event.setNX key (gen 0) opt.expires]) := by
  obtain ⟨m, rfl⟩ : ∃ m, fuel = m + 1 := ⟨fuel - 1, by omega⟩
  simp [tryGetLock, tryGetLockLoop, h0, hw]

/-- Witness for C2 at a concrete contended no-wait run. -/
theorem noWait_contention_single_attempt_witness :
    tryGetLock "key" ⟨"127.0.0.1:6379", 86400, false, false, 111⟩
        (fun _ => false) demoTokenGen 1
      = (some (Except.error "unable to lock"),
         [Event.setNX "key" "t0" 86400]) :=
  noWait_contention_single_attempt "key"
    ⟨"127.0.0.1:6379", 86400, false, false, 111⟩
    (fun _ => false) demoTokenGen 1 rfl (by decide) rfl

/-- C5: `releaseLock` with `opt.Keep` performs no store operation and
returns nil; without it, it issues the atomic compare-and-delete script
exactly once, the store is updated by that script alone, and the returned
error is always nil, so a script result of 0 (no delete occurred) is
never surfaced to the caller. -/
theorem releaseLock_keep_noop_and_swallowed_zero (opt : Options)
    (store : Store) (key token : String) :
    (opt.keep = true →
      releaseLock opt store key token = (store, none, [Event.releaseCalled])) ∧
    (opt.keep = false →
      releaseLock opt store key token
        = ((evalUnlockScript store key token).1, none,
           [Event.releaseCalled, Event.evalUnlock key token])) ∧
    (releaseLock opt store key token).2.1 = none := by
  refine ⟨fun h => ?_, fun h => ?_, ?_⟩
  · simp [releaseLock, h]
  · simp [releaseLock, h]
  · by_cases h : opt.keep <;> simp [releaseLock, h]

/-- Witness for C5: a keep run leaves the entry in place, and a no-keep
run on an entry now owned by a different token reports no error even
though the script deleted nothing. -/
theorem releaseLock_keep_noop_and_swallowed_zero_witness :
    releaseLock ⟨"127.0.0.1:6379", 86400, true, true, 111⟩
        [("key", "t0")] "key" "t0"
      = ([("key", "t0")], none, [Event.releaseCalled]) ∧
    releaseLock ⟨"127.0.0.1:6379", 86400, false, true, 111⟩
        [("key", "other")] "key" "t0"
      = ([("key", "other")], none,
         [Event.releaseCalled, Event.evalUnlock "key" "t0"]) ∧
    (evalUnlockScript [("key", "other")] "key" "t0").2 = 0 :=
  ⟨(releaseLock_keep_noop_and_swallowed_zero
      ⟨"127.0.0.1:6379", 86400, true, true, 111⟩ [("key", "t0")] "key" "t0").1 rfl,
   (releaseLock_keep_noop_and_swallowed_zero
      ⟨"127.0.0.1:6379", 86400, false, true, 111⟩ [("key", "other")] "key" "t0").2.1 rfl,
   by decide⟩

/-- C8: when a trapped termination signal arrives before the child
completes, the supervisor forwards the identical signal to the child,
drains the completion channel before returning, and returns an exit code
equal to the signal number. -/
theorem signal_forwarded_child_reaped_code_is_signum (s : Sig) :
    invokeCommand (SigOrExit.signal s)
      = (sigNum s,
         [Event.startChild, Event.sigReceived s, Event.forwardSignal s,
          Event.reapChild]) := rfl

/-- C9: any non-empty version string with fewer than three dot-separated
components makes `validateRedisVersion` index the split result out of
bounds (a Go panic, modelled as `none`): the check cannot complete
normally on such inputs. -/
theorem version_short_split_out_of_bounds (v : String) (hne : v ≠ "")
    (h : (goSplit v '.').length < 3) :
    validateRedisVersion v = none := by
  have hbeq : (v == "") = false := by simp [hne]
  unfold validateRedisVersion
  rw [hbeq]
  simp only [Bool.false_eq_true, if_false]
  rcases hs : goSplit v '.' with _ | ⟨a, _ | ⟨b, _ | ⟨c, rest⟩⟩⟩
  · simp [goSplitN, goSplitN.regroup, hs]
  · simp [goSplitN, goSplitN.regroup, hs]
  · simp [goSplitN, goSplitN.regroup, hs]
  · rw [hs] at h
    simp at h
    omega

/-- Witness for C9 at the two-component string `2.6`. -/
theorem version_short_split_out_of_bounds_witness :
    validateRedisVersion "2.6" = none :=
  version_short_split_out_of_bounds "2.6" (by decide) (by decide)

/-- C10: in wait mode the acquisition loop has no failure exit: it never
returns the contention error, and as long as every set-if-absent attempt
fails (the key stays held by another process) it does not terminate,
however much fuel it is given. -/
theorem wait_mode_never_fails (key : String) (opt : Options)
    (env : Nat → Bool) (gen : Nat → String) (fuel : Nat)
    (hw : opt.wait = true) :
    (∀ e : String, (tryGetLock key opt env gen fuel).1 ≠ some (Except.error e)) ∧
    ((∀ i, env i = false) → (tryGetLock key opt env gen fuel).1 = none) := by
  constructor
  · intro e hcontra
    simp only [tryGetLock, hw] at hcontra
    rcases hres : (tryGetLockLoop key opt.expires true env (gen 0) fuel 0).1
      with _ | b
    · rw [hres] at hcontra
      simp at hcontra
    · rw [hres] at hcontra
      cases b
      · exact tryGetLockLoop_wait_not_false key opt.expires env (gen 0) fuel 0 hres
      · simp at hcontra
  · intro hall
    simp only [tryGetLock, hw]
    rw [tryGetLockLoop_allfail key opt.expires env (gen 0) hall fuel 0]
    rfl

/-- Witness for C10: a concrete wait-mode run against a permanently held
key yields no result after two iterations and is not the contention
error. -/
theorem wait_mode_never_fails_witness :
    (tryGetLock "key" ⟨"127.0.0.1:6379", 86400, false, true, 111⟩
        (fun _ => false) demoTokenGen 2).1 ≠ some (Except.error "unable to lock") ∧
    (tryGetLock "key" ⟨"127.0.0.1:6379", 86400, false, true, 111⟩
        (fun _ => false) demoTokenGen 2).1 = none :=
  ⟨(wait_mode_never_fails "key" ⟨"127.0.0.1:6379", 86400, false, true, 111⟩
      (fun _ => false) demoTokenGen 2 rfl).1 "unable to lock",
   (wait_mode_never_fails "key" ⟨"127.0.0.1:6379", 86400, false, true, 111⟩
      (fun _ => false) demoTokenGen 2 rfl).2 (fun _ => rfl)⟩

/-- C1 (counterexample): in a wait-mode acquisition whose first
`SET ... NX` attempt is contended and whose second succeeds, both
attempts are issued with the same token, even though the token generator
would have supplied a fresh value: `createToken` is called once, before
the loop. -/
theorem token_reused_across_retries :
    attemptTokens (tryGetLock "key" ⟨"127.0.0.1:6379", 86400, false, true, 111⟩
        (fun i => i == 1) demoTokenGen 5).2 = ["t0", "t0"] ∧
    ¬ (attemptTokens (tryGetLock "key" ⟨"127.0.0.1:6379", 86400, false, true, 111⟩
        (fun i => i == 1) demoTokenGen 5).2).Nodup :=
  ⟨rfl, by decide⟩

/-- C1 (amended): within one `tryGetLock` call a single token is
generated up front, and every `SET ... NX` attempt, the initial one and
each retry, is issued with that same token. -/
theorem one_token_per_acquire_call (key : String) (opt : Options)
    (env : Nat → Bool) (gen : Nat → String) (fuel : Nat) :
    ∀ tok ∈ attemptTokens (tryGetLock key opt env gen fuel).2, tok = gen 0 := by
  intro tok h
  simp only [tryGetLock] at h
  exact attemptTokens_tryGetLockLoop key opt.expires opt.wait env (gen 0)
    fuel 0 tok h

/-- Witness for the amended C1 at a concrete single-attempt run. -/
theorem one_token_per_acquire_call_witness :
    "t0" = demoTokenGen 0 :=
  one_token_per_acquire_call "key" ⟨"127.0.0.1:6379", 86400, false, false, 111⟩
    (fun _ => false) demoTokenGen 1 "t0" (by decide)

/-- C4 (counterexample): no run of the acquisition loop ever sleeps a
duration different from the constant `RetryInterval`, so the interval is
not randomized or jittered. -/
theorem retry_interval_not_randomized : ¬ sleepIsRandomized := by
  rintro ⟨key, opt, env, gen, fuel, d, hd, hne⟩
  simp only [tryGetLock] at hd
  exact hne (sleepDurations_tryGetLockLoop key opt.expires opt.wait env (gen 0)
    fuel 0 d hd)

/-- C4 (amended): the interval slept between consecutive acquisition
attempts is the fixed constant `RetryInterval` = 500 ms on every
iteration; it is bounded and strictly sub-second, but not randomized. -/
theorem retry_sleep_fixed_subsecond (key : String) (opt : Options)
    (env : Nat → Bool) (gen : Nat → String) (fuel : Nat) :
    (∀ d ∈ sleepDurations (tryGetLock key opt env gen fuel).2,
      d = retryIntervalMs) ∧
    retryIntervalMs < 1000 := by
  refine ⟨fun d hd => ?_, by decide⟩
  simp only [tryGetLock] at hd
  exact sleepDurations_tryGetLockLoop key opt.expires opt.wait env (gen 0)
    fuel 0 d hd

/-- Witness for the amended C4 at a run that actually sleeps. -/
theorem retry_sleep_fixed_subsecond_witness :
    500 = retryIntervalMs ∧ retryIntervalMs < 1000 :=
  ⟨(retry_sleep_fixed_subsecond "key" ⟨"127.0.0.1:6379", 86400, false, true, 111⟩
      (fun _ => false) demoTokenGen 2).1 500 (by decide),
   (retry_sleep_fixed_subsecond "key" ⟨"127.0.0.1:6379", 86400, false, true, 111⟩
      (fun _ => false) demoTokenGen 2).2⟩

/-- C6: when acquisition fails with the contention error, `run` exits
with the configured contention code: 0 when `-x` was given and the
distinguished non-zero `ExitCodeError` = 111 otherwise. -/
theorem contention_exit_code_from_flags (f : FlagInputs) (key : String)
    (env : RunEnv) (e : String)
    (hconn : env.connectOk = true)
    (hver : validateRedisVersion env.versionStr = some true)
    (hacq : (tryGetLock key (parseOptions f) env.acquireEnv env.tokenGen
        env.fuel).1 = some (Except.error e)) :
    (run (parseOptions f) key env).1
      = some (if f.exitZero then 0 else exitCodeError) ∧
    exitCodeError ≠ 0 := by
  refine ⟨?_, by decide⟩
  simp only [run, hconn, hver, hacq, Bool.not_true]
  by_cases hx : f.exitZero <;> by_cases hn : f.noDelay <;>
    simp [parseOptions, hx, hn]

/-- Witness for C6: a contended no-wait run with `-x` exits 0. -/
theorem contention_exit_code_from_flags_witness :
    (run (parseOptions ⟨"127.0.0.1:6379", 86400, false, true, true, true, false⟩)
        "key"
        ⟨true, "2.8.19", fun _ => false, demoTokenGen,
          SigOrExit.exited none, [], 1⟩).1 = some 0 ∧
    exitCodeError ≠ 0 :=
  contention_exit_code_from_flags
    ⟨"127.0.0.1:6379", 86400, false, true, true, true, false⟩ "key"
    ⟨true, "2.8.19", fun _ => false, demoTokenGen, SigOrExit.exited none, [], 1⟩
    "unable to lock" rfl rfl rfl


/-- `strconv.Atoi` on an all-digit non-empty string yields the decimal
value of those digits. -/
theorem goAtoi_of_all_digits (s : String) (h1 : s.toList ≠ [])
    (h2 : s.toList.all Char.isDigit = true) :
    goAtoi s
      = Int.ofNat (s.toList.foldl (fun acc c => acc * 10 + (c.toNat - 48)) 0) := by
  simp only [goAtoi]
  split
  next rest heq =>
    exfalso
    rw [heq] at h2
    simp [List.all_cons] at h2
  next rest heq =>
    exfalso
    rw [heq] at h2
    simp [List.all_cons] at h2
  next l hne1 hne2 =>
    rw [if_pos ⟨h1, h2⟩, one_mul]

/-- C3 (amended): on the three Atoi-parsed components (where a component
that is not a plain number parses to 0), the acceptance condition of
`validateRedisVersion` holds exactly when `major.minor.patch` is
lexicographically at least 2.6.12; on any strictly parseable version
string the gate computes exactly that condition; and whenever the gate
rejects, `run` returns the failure exit code 111 without issuing a single
`SET ... NX` attempt. -/
theorem version_gate_amended :
    (∀ m n r : Int, versionCheck m n r = true ↔
        (2 < m ∨ (m = 2 ∧ (6 < n ∨ (n = 6 ∧ 12 ≤ r))))) ∧
    (∀ (v : String) (m n r : Int), specParseVersion v = some (m, n, r) →
        validateRedisVersion v = some (versionCheck m n r)) ∧
    (∀ (opt : Options) (key : String) (env : RunEnv),
        validateRedisVersion env.versionStr = some false →
        (run opt key env).1 = some exitCodeError ∧
        ∀ (k t : String) (ex : Int), Event.setNX k t ex ∉ (run opt key env).2) := by
  refine ⟨?_, ?_, ?_⟩
  · intro m n r
    simp only [versionCheck, Bool.or_eq_true, Bool.and_eq_true, decide_eq_true_eq,
      beq_iff_eq]
    omega
  · intro v m n r h
    simp only [specParseVersion] at h
    split at h
    next a b c heq =>
      split at h
      next x y z hx hy hz =>
        rw [Option.some_inj, Prod.ext_iff, Prod.ext_iff] at h
        obtain ⟨rfl, rfl, rfl⟩ := h
        split at hx
        next hca =>
          split at hy
          next hcb =>
            split at hz
            next hcc =>
              rw [Option.some_inj] at hx hy hz
              have hne : v ≠ "" := by
                intro hv
                rw [hv] at heq
                rw [show goSplit "" '.' = [""] from rfl] at heq
                simp at heq
              have hbeq : (v == "") = false := by simp [hne]
              have h3 : goSplitN v '.' 3 = [a, b, c] := by
                unfold goSplitN
                rw [heq]
                rfl
              unfold validateRedisVersion
              rw [hbeq]
              simp only [Bool.false_eq_true, if_false, h3]
              show some (versionCheck (goAtoi a) (goAtoi b) (goAtoi c)) = _
              rw [goAtoi_of_all_digits a hca.1 hca.2,
                goAtoi_of_all_digits b hcb.1 hcb.2,
                goAtoi_of_all_digits c hcc.1 hcc.2, hx, hy, hz]
            next => simp at hz
          next => simp at hy
        next => simp at hx
      next => simp at h
    next => simp at h
  · intro opt key env h
    constructor
    · simp only [run]
      cases hc : env.connectOk
      · simp
      · simp [h]
    · intro k t ex
      simp only [run]
      cases hc : env.connectOk
      · simp
      · simp [h]


/-- C3 (counterexample): the probed version string `3.x.y` cannot be
parsed as a `major.minor.patch` version, yet the gate accepts it instead
of failing, because `strconv.Atoi` errors are discarded and `x`, `y`
default to 0. -/
theorem version_gate_accepts_unparseable :
    validateRedisVersion "3.x.y" = some true ∧
    specParseVersion "3.x.y" = none :=
  ⟨rfl, rfl⟩

/-- Witness for the amended C3: a parseable version is decided exactly by
`versionCheck`, and a rejected version makes `run` exit 111. -/
theorem version_gate_amended_witness :
    validateRedisVersion "2.6.12" = some (versionCheck 2 6 12) ∧
    (run ⟨"127.0.0.1:6379", 86400, false, true, 111⟩ "key"
        ⟨true, "2.5.0", fun _ => false, demoTokenGen,
          SigOrExit.exited none, [], 1⟩).1 = some exitCodeError :=
  ⟨version_gate_amended.2.1 "2.6.12" 2 6 12 rfl,
   (version_gate_amended.2.2 ⟨"127.0.0.1:6379", 86400, false, true, 111⟩ "key"
      ⟨true, "2.5.0", fun _ => false, demoTokenGen,
        SigOrExit.exited none, [], 1⟩ rfl).1⟩

/-- C7: after a successful acquisition, `run` runs the child to
completion, then calls release exactly once, immediately after the child
has been reaped, whatever the child outcome or forwarded signal was, and
returns the code computed by the supervisor. -/
theorem release_once_after_child_exit (opt : Options) (key : String)
    (env : RunEnv) (token : String)
    (hconn : env.connectOk = true)
    (hver : validateRedisVersion env.versionStr = some true)
    (hacq : (tryGetLock key opt env.acquireEnv env.tokenGen env.fuel).1
        = some (Except.ok token)) :
    (run opt key env).1 = some (invokeCommand env.race).1 ∧
    ∃ pre post,
      (run opt key env).2
        = pre ++ Event.reapChild :: Event.releaseCalled :: post ∧
      Event.releaseCalled ∉ pre ∧ Event.releaseCalled ∉ post := by
  have hnm : Event.releaseCalled
      ∉ (tryGetLock key opt env.acquireEnv env.tokenGen env.fuel).2 := by
    simpa only [tryGetLock] using
      releaseCalled_not_mem_tryGetLockLoop key opt.expires opt.wait
        env.acquireEnv (env.tokenGen 0) env.fuel 0
  have hrun : run opt key env
      = (some (invokeCommand env.race).1,
         Event.connect :: Event.versionProbe ::
           ((tryGetLock key opt env.acquireEnv env.tokenGen env.fuel).2
             ++ (invokeCommand env.race).2
             ++ (releaseLock opt env.store key token).2.2)) := by
    simp only [run, hconn, hver, hacq, Bool.not_true, Bool.false_eq_true, if_false]
  rw [hrun]
  refine ⟨rfl, ?_⟩
  rcases hr : env.race with s | w <;> rcases hk : opt.keep
  · refine ⟨Event.connect :: Event.versionProbe ::
        ((tryGetLock key opt env.acquireEnv env.tokenGen env.fuel).2
          ++ [Event.startChild, Event.sigReceived s, Event.forwardSignal s]),
      [Event.evalUnlock key token], ?_, ?_, ?_⟩
    · simp [invokeCommand, releaseLock, hk, List.append_assoc]
    · simp [hnm]
    · simp
  · refine ⟨Event.connect :: Event.versionProbe ::
        ((tryGetLock key opt env.acquireEnv env.tokenGen env.fuel).2
          ++ [Event.startChild, Event.sigReceived s, Event.forwardSignal s]),
      [], ?_, ?_, ?_⟩
    · simp [invokeCommand, releaseLock, hk, List.append_assoc]
    · simp [hnm]
    · simp
  · refine ⟨Event.connect :: Event.versionProbe ::
        ((tryGetLock key opt env.acquireEnv env.tokenGen env.fuel).2
          ++ [Event.startChild]),
      [Event.evalUnlock key token], ?_, ?_, ?_⟩
    · simp [invokeCommand, releaseLock, hk, List.append_assoc]
    · simp [hnm]
    · simp
  · refine ⟨Event.connect :: Event.versionProbe ::
        ((tryGetLock key opt env.acquireEnv env.tokenGen env.fuel).2
          ++ [Event.startChild]),
      [], ?_, ?_, ?_⟩
    · simp [invokeCommand, releaseLock, hk, List.append_assoc]
    · simp [hnm]
    · simp


/-- Witness for C7: a run whose child exits with status 7 releases once,
right after the child is reaped, and returns 7. -/
theorem release_once_after_child_exit_witness :
    (run ⟨"127.0.0.1:6379", 86400, false, true, 111⟩ "key"
        ⟨true, "2.8.19", fun _ => true, demoTokenGen,
          SigOrExit.exited (some 7), [("key", "t0")], 1⟩).1
      = some (invokeCommand (SigOrExit.exited (some 7))).1 ∧
    ∃ pre post,
      (run ⟨"127.0.0.1:6379", 86400, false, true, 111⟩ "key"
          ⟨true, "2.8.19", fun _ => true, demoTokenGen,
            SigOrExit.exited (some 7), [("key", "t0")], 1⟩).2
        = pre ++ Event.reapChild :: Event.releaseCalled :: post ∧
      Event.releaseCalled ∉ pre ∧ Event.releaseCalled ∉ post :=
  release_once_after_child_exit ⟨"127.0.0.1:6379", 86400, false, true, 111⟩
    "key"
    ⟨true, "2.8.19", fun _ => true, demoTokenGen,
      SigOrExit.exited (some 7), [("key", "t0")], 1⟩
    "t0" rfl rfl rfl
